import Mathlib

/-!
Verification of the position-sizer core (`src/position_sizer.py`).

The Python core is a class `PositionSizer` holding an account balance,
a commission per trade and a slippage per share, with four pure sizing
methods, plus a static helper computing the last close and the ATR from
a sequence of daily price bars.

Shallow embedding choices:
* Python floats are modelled as rationals (ℚ); `math.floor` is `Int.floor`.
* Python's `ZeroDivisionError` (raised by `x / 0.0` on floats) is made
  explicit: each method that divides returns `Except PyError _` and
  produces `PyError.zeroDivisionError` exactly when its divisor is zero.
* The pandas pipeline in `fetch_price_and_atr` (`shift`, elementwise max
  with NaN-skipping, `rolling(..., min_periods=1).mean().iloc[-1]`) is
  embedded as list operations; the network download is the external
  collaborator, so the function takes the downloaded bars as input.
-/

/-- The account configuration held by the Python class `PositionSizer`
(`__init__`: `account_balance`, `commission_per_trade`, `slippage_per_share`). -/
structure PositionSizer where
  account_balance : ℚ
  commission_per_trade : ℚ
  slippage_per_share : ℚ
deriving DecidableEq

/-- The one error the Python sizing methods can raise: float division by
exactly zero raises `ZeroDivisionError`. -/
inductive PyError where
  | zeroDivisionError
deriving DecidableEq

/-- Result record of `fixed_risk_by_stop`: `(qty, cost, risk_amt, trade_risk)`. -/
structure FixedRiskResult where
  qty : ℤ
  cost : ℚ
  risk_amt : ℚ
  trade_risk : ℚ
deriving DecidableEq

/-- Result record of `percent_of_portfolio`: `(qty, cost, position_value)`. -/
structure PortfolioResult where
  qty : ℤ
  cost : ℚ
  position_value : ℚ
deriving DecidableEq

/-- Result record of `atr_position_size`: `(qty, risk_amt, trade_risk)`. -/
structure AtrResult where
  qty : ℤ
  risk_amt : ℚ
  trade_risk : ℚ
deriving DecidableEq

/-- Result record of `kelly_position_size`:
`(qty, raw_kelly, kelly_used, position_value)`. -/
structure KellyResult where
  qty : ℤ
  raw_kelly : ℚ
  kelly_used : ℚ
  position_value : ℚ
deriving DecidableEq

/-- `PositionSizer.risk_amount`: `account_balance * risk_pct`. -/
def risk_amount (self : PositionSizer) (risk_pct : ℚ) : ℚ :=
  self.account_balance * risk_pct

/-- `PositionSizer.fixed_risk_by_stop`. The division
`(risk_amt - commission) / trade_risk` raises `ZeroDivisionError` when
`trade_risk` is zero; otherwise `qty = max(floor(...), 0)` and
`cost = qty * entry_price + commission`. -/
def fixed_risk_by_stop (self : PositionSizer) (entry_price stop_price risk_pct : ℚ) :
    Except PyError FixedRiskResult :=
  let trade_risk := |entry_price - stop_price| + self.slippage_per_share
  let risk_amt := risk_amount self risk_pct
  if trade_risk = 0 then Except.error PyError.zeroDivisionError
  else
    let qty : ℤ := max ⌊(risk_amt - self.commission_per_trade) / trade_risk⌋ 0
    let cost := (qty : ℚ) * entry_price + self.commission_per_trade
    Except.ok ⟨qty, cost, risk_amt, trade_risk⟩

/-- `PositionSizer.percent_of_portfolio`. The division by `entry_price`
raises `ZeroDivisionError` when `entry_price` is zero; there is no other
validation of `entry_price`. -/
def percent_of_portfolio (self : PositionSizer) (entry_price allocation_pct : ℚ) :
    Except PyError PortfolioResult :=
  let position_value := self.account_balance * allocation_pct
  if entry_price = 0 then Except.error PyError.zeroDivisionError
  else
    let qty : ℤ := max ⌊(position_value - self.commission_per_trade) / entry_price⌋ 0
    let cost := (qty : ℚ) * entry_price + self.commission_per_trade
    Except.ok ⟨qty, cost, position_value⟩

/-- `PositionSizer.atr_position_size`. The division by `trade_risk`
raises `ZeroDivisionError` when `trade_risk` is zero. -/
def atr_position_size (self : PositionSizer) (atr atr_multiplier risk_pct : ℚ) :
    Except PyError AtrResult :=
  let trade_risk := atr * atr_multiplier + self.slippage_per_share
  let risk_amt := risk_amount self risk_pct
  if trade_risk = 0 then Except.error PyError.zeroDivisionError
  else
    let qty : ℤ := max ⌊(risk_amt - self.commission_per_trade) / trade_risk⌋ 0
    Except.ok ⟨qty, risk_amt, trade_risk⟩

/-- `PositionSizer.kelly_position_size`. The first division
`(1 - W) / R` raises `ZeroDivisionError` when the win/loss ratio is zero;
the later division by `entry_price` raises when `entry_price` is zero. -/
def kelly_position_size (self : PositionSizer) (entry_price win_rate : ℚ)
    ( win_loss_ratio : ℚ) (fraction_of_kelly : ℚ) : Except PyError KellyResult :=
  if win_loss_ratio = 0 then Except.error PyError.zeroDivisionError
  else
    let raw_kelly := win_rate - (1 - win_rate) / win_loss_ratio
    let kelly_used := max raw_kelly 0 * fraction_of_kelly
    let position_value := self.account_balance * kelly_used
    if entry_price = 0 then Except.error PyError.zeroDivisionError
    else
      let qty : ℤ := max ⌊(position_value - self.commission_per_trade) / entry_price⌋ 0
      Except.ok ⟨qty, raw_kelly, kelly_used, position_value⟩

/-- A daily price bar `(high, low, close)`, one row of the downloaded frame. -/
structure PriceBar where
  high : ℚ
  low : ℚ
  close : ℚ
deriving DecidableEq

/-- `close.shift(1)`: each entry moved down one row, `NaN` (here `none`) in
the first row, same length as the input. -/
def shift1 (xs : List ℚ) : List (Option ℚ) :=
  (none :: xs.map some).take xs.length

/-- One row of
`pd.concat([(high - low), (high - prev_close).abs(), (low - prev_close).abs()], axis=1).max(axis=1)`:
when `prev_close` is `NaN` the two columns built from it are `NaN` and the
row maximum (which skips NaN) is `high - low`. -/
def trRow (hi lo : ℚ) : Option ℚ → ℚ
  | none => hi - lo
  | some pc => max (hi - lo) (max |hi - pc| |lo - pc|)

/-- The true-range series `tr` of `fetch_price_and_atr`, aligned row by row
with the shifted close series. -/
def trueRange (bars : List PriceBar) : List ℚ :=
  List.zipWith (fun b pc => trRow b.high b.low pc) bars
    (shift1 (bars.map (fun b => b.close)))

/-- `tr.rolling(window=w, min_periods=1).mean().iloc[-1]`: the mean of the
last `min w n` entries (for a nonempty series and `w ≥ 1`). -/
def lastRollingMean (w : ℕ) (xs : List ℚ) : ℚ :=
  let win := xs.drop (xs.length - w)
  win.sum / (win.length : ℚ)

/-- `PositionSizer.fetch_price_and_atr`, after the external download: given
the downloaded bars, returns `none` when the frame is empty, otherwise the
last close and the rolling ATR. -/
def fetch_price_and_atr (bars : List PriceBar) (atr_period : ℕ) :
    Option (ℚ × ℚ) :=
  if h : bars = [] then none
  else some ((bars.getLast h).close, lastRollingMean atr_period (trueRange bars))

/-- The spec's true-range recurrence, carrying the previous close:
`trueRange[0] = high[0] - low[0]` and for `i > 0`
`trueRange[i] = max(high[i] - low[i], |high[i] - close[i-1]|, |low[i] - close[i-1]|)`. -/
def trueRangeSpecFrom : Option ℚ → List PriceBar → List ℚ
  | _, [] => []
  | pc, b :: rest => trRow b.high b.low pc :: trueRangeSpecFrom (some b.close) rest

/-- The spec's ATR: arithmetic mean of the true-range series over the
trailing window ending at the last bar. -/
def atrSpec (bars : List PriceBar) (atr_period : ℕ) : ℚ :=
  let tr := trueRangeSpecFrom none bars
  let win := tr.drop (tr.length - atr_period)
  win.sum / (win.length : ℚ)

/-- C1: for every account config and all inputs with a positive risk per
share, `fixed_risk_by_stop` returns risk per share
`|entry - stop| + slippage`, risk amount `balance * risk_pct`, quantity
`max(floor((risk_amount - commission) / risk_per_share), 0)` and cost
`quantity * entry + commission`; in particular with balance 10000, zero
commission and slippage, entry 100, stop 95 and risk 2% it returns
quantity 40 and cost 4000. -/
theorem fixed_risk_by_stop_formula :
    (∀ (cfg : PositionSizer) (entry_price stop_price risk_pct : ℚ),
      0 < |entry_price - stop_price| + cfg.slippage_per_share →
      fixed_risk_by_stop cfg entry_price stop_price risk_pct =
        Except.ok
          ⟨max ⌊(cfg.account_balance * risk_pct - cfg.commission_per_trade) /
              (|entry_price - stop_price| + cfg.slippage_per_share)⌋ 0,
           ((max ⌊(cfg.account_balance * risk_pct - cfg.commission_per_trade) /
              (|entry_price - stop_price| + cfg.slippage_per_share)⌋ 0 : ℤ) : ℚ) * entry_price
             + cfg.commission_per_trade,
           cfg.account_balance * risk_pct,
           |entry_price - stop_price| + cfg.slippage_per_share⟩) ∧
    fixed_risk_by_stop ⟨10000, 0, 0⟩ 100 95 (2/100) = Except.ok ⟨40, 4000, 200, 5⟩ := by
  constructor
  · intro cfg entry_price stop_price risk_pct h
    simp only [fixed_risk_by_stop, risk_amount]
    rw [if_neg h.ne']
  · simp only [fixed_risk_by_stop, risk_amount]
    norm_num

/-- Witness for C1: the general formula instantiated at the spec's worked
example yields quantity 40 and cost 4000. -/
theorem fixed_risk_by_stop_formula_witness :
    fixed_risk_by_stop ⟨10000, 0, 0⟩ 100 95 (2/100) = Except.ok ⟨40, 4000, 200, 5⟩ := by
  have h := fixed_risk_by_stop_formula.1 ⟨10000, 0, 0⟩ 100 95 (2/100) (by norm_num)
  rw [h]
  norm_num

/-- C2: at entry = stop with zero slippage the risk per share is zero and
the code divides by it: `fixed_risk_by_stop` raises an uncaught
`ZeroDivisionError` (it neither raises a dedicated invalid-input error nor
returns quantity 0). -/
theorem fixed_risk_by_stop_zero_denominator :
    fixed_risk_by_stop ⟨10000, 0, 0⟩ 100 100 (2/100) =
      Except.error PyError.zeroDivisionError := by
  simp only [fixed_risk_by_stop, risk_amount]
  norm_num

/-- C3: whenever one of the four sizing methods returns a result (rather
than raising), the quantity is an integer (`ℤ` by construction) and is
nonnegative. -/
theorem quantity_nonneg :
    (∀ (cfg : PositionSizer) (e s p : ℚ) (r : FixedRiskResult),
      fixed_risk_by_stop cfg e s p = Except.ok r → 0 ≤ r.qty) ∧
    (∀ (cfg : PositionSizer) (e a : ℚ) (r : PortfolioResult),
      percent_of_portfolio cfg e a = Except.ok r → 0 ≤ r.qty) ∧
    (∀ (cfg : PositionSizer) (a m p : ℚ) (r : AtrResult),
      atr_position_size cfg a m p = Except.ok r → 0 ≤ r.qty) ∧
    (∀ (cfg : PositionSizer) (e w q f : ℚ) (r : KellyResult),
      kelly_position_size cfg e w q f = Except.ok r → 0 ≤ r.qty) := by
  refine ⟨?_, ?_, ?_, ?_⟩
  · intro cfg e s p r h
    simp only [fixed_risk_by_stop, risk_amount] at h
    split at h
    · exact absurd h (by simp)
    · injection h with h
      subst h
      exact le_max_right _ 0
  · intro cfg e a r h
    simp only [percent_of_portfolio] at h
    split at h
    · exact absurd h (by simp)
    · injection h with h
      subst h
      exact le_max_right _ 0
  · intro cfg a m p r h
    simp only [atr_position_size, risk_amount] at h
    split at h
    · exact absurd h (by simp)
    · injection h with h
      subst h
      exact le_max_right _ 0
  · intro cfg e w q f r h
    simp only [kelly_position_size] at h
    split at h
    · exact absurd h (by simp)
    · split at h
      · exact absurd h (by simp)
      · injection h with h
        subst h
        exact le_max_right _ 0

/-- Witness for C3: the fixed-risk method at the spec's worked example
returns quantity 40, which is nonnegative. -/
theorem quantity_nonneg_witness : (0:ℤ) ≤ 40 :=
  quantity_nonneg.1 ⟨10000, 0, 0⟩ 100 95 (2/100) ⟨40, 4000, 200, 5⟩
    (by simp only [fixed_risk_by_stop, risk_amount]; norm_num)

lemma zipWith_take_length {α β γ : Type} (f : α → β → γ) :
    ∀ (xs : List α) (ys : List β),
      List.zipWith f xs (ys.take xs.length) = List.zipWith f xs ys
  | [], _ => by simp
  | _ :: _, [] => by simp
  | x :: xs, y :: ys => by
      simp only [List.length_cons, List.take_succ_cons, List.zipWith_cons_cons]
      rw [zipWith_take_length f xs ys]

lemma zipWith_shift_eq_spec : ∀ (pc : Option ℚ) (bars : List PriceBar),
    List.zipWith (fun b c => trRow b.high b.low c) bars
      (pc :: bars.map (fun b => some b.close)) = trueRangeSpecFrom pc bars
  | _, [] => by simp [trueRangeSpecFrom]
  | pc, b :: rest => by
      simp only [List.map_cons, List.zipWith_cons_cons, trueRangeSpecFrom]
      rw [zipWith_shift_eq_spec (some b.close) rest]

lemma trueRange_eq_spec (bars : List PriceBar) :
    trueRange bars = trueRangeSpecFrom none bars := by
  simp only [trueRange, shift1, List.length_map, List.map_map]
  rw [zipWith_take_length]
  exact zipWith_shift_eq_spec none bars

lemma length_trueRangeSpecFrom :
    ∀ (pc : Option ℚ) (bars : List PriceBar),
      (trueRangeSpecFrom pc bars).length = bars.length
  | _, [] => rfl
  | _, b :: rest => by
      simp only [trueRangeSpecFrom, List.length_cons,
        length_trueRangeSpecFrom (some b.close) rest]

/-- C4: on a nonempty bar sequence and a positive period,
`fetch_price_and_atr` returns the close of the final bar together with the
arithmetic mean of the spec's true-range series over the trailing window
ending at the last bar, and that window holds `min atr_period bars.length`
entries. -/
theorem fetch_price_and_atr_spec :
    ∀ (bars : List PriceBar) (atr_period : ℕ) (hb : bars ≠ []),
      0 < atr_period →
      fetch_price_and_atr bars atr_period =
        some ((bars.getLast hb).close, atrSpec bars atr_period) ∧
      ((trueRangeSpecFrom none bars).drop
          ((trueRangeSpecFrom none bars).length - atr_period)).length =
        min atr_period bars.length := by
  intro bars atr_period hb _
  constructor
  · simp only [fetch_price_and_atr, dif_neg hb, lastRollingMean, atrSpec,
      trueRange_eq_spec]
  · rw [List.length_drop, length_trueRangeSpecFrom]
    omega

/-- Witness for C4: two concrete bars with period 14 give last close 11 and
ATR `(2 + 3) / 2 = 5/2`. -/
theorem fetch_price_and_atr_spec_witness :
    fetch_price_and_atr [⟨10, 8, 9⟩, ⟨12, 9, 11⟩] 14 = some (11, 5/2) := by
  have h := (fetch_price_and_atr_spec [⟨10, 8, 9⟩, ⟨12, 9, 11⟩] 14
    (by simp) (by norm_num)).1
  rw [h]
  norm_num [atrSpec, trueRangeSpecFrom, trRow, List.getLast]

/-- C8: on the empty bar sequence `fetch_price_and_atr` returns the empty
result for every positive period; in the embedding it is a total function,
so no exception is possible. -/
theorem fetch_price_and_atr_nil :
    ∀ (atr_period : ℕ), 0 < atr_period → fetch_price_and_atr [] atr_period = none := by
  intro atr_period _
  rfl

/-- Witness for C8: the empty sequence with period 14. -/
theorem fetch_price_and_atr_nil_witness : fetch_price_and_atr [] 14 = none :=
  fetch_price_and_atr_nil 14 (by norm_num)

/-- C5: `percent_of_portfolio` performs no validation of `entry_price`:
at entry 0 it raises an uncaught `ZeroDivisionError`, and at a negative
entry (-50, allocation 10% of a 10000 balance) it silently returns a
result record instead of failing. -/
theorem percent_of_portfolio_nonpositive_entry :
    percent_of_portfolio ⟨10000, 0, 0⟩ 0 (1/10) =
      Except.error PyError.zeroDivisionError ∧
    percent_of_portfolio ⟨10000, 0, 0⟩ (-50) (1/10) =
      Except.ok ⟨0, 0, 1000⟩ := by
  constructor
  · simp [percent_of_portfolio]
  · simp only [percent_of_portfolio]
    norm_num

/-- C6: `kelly_position_size` with a zero win/loss ratio performs the
division `(1 - W) / 0` and raises an uncaught `ZeroDivisionError` (not a
dedicated invalid-input error). -/
theorem kelly_position_size_zero_ratio :
    kelly_position_size ⟨10000, 0, 0⟩ 100 (55/100) 0 (1/4) =
      Except.error PyError.zeroDivisionError := by
  simp [kelly_position_size]

/-- Counterexample to C7 as stated: with a negative risk percentage the
budget `risk_amt - commission` is -100, the clamp makes the quantity 0,
and `quantity * risk_per_share = 0` exceeds the budget, so the first floor
inequality fails. -/
theorem fixed_risk_floor_bounds_cex :
    fixed_risk_by_stop ⟨10000, 0, 0⟩ 100 95 (-1/100) =
      Except.ok ⟨0, 0, -100, 5⟩ ∧
    ¬ (((0:ℤ):ℚ) * 5 ≤ -100 - 0) := by
  constructor
  · simp only [fixed_risk_by_stop, risk_amount]
    norm_num
  · norm_num

/-- C7 amended: for valid inputs with a positive risk per share **and a
nonnegative sizing budget `balance * risk_pct - commission`**, the returned
quantity satisfies both floor inequalities:
`quantity * risk_per_share ≤ risk_amount - commission` and
`(quantity + 1) * risk_per_share > risk_amount - commission`. -/
theorem fixed_risk_floor_bounds :
    ∀ (cfg : PositionSizer) (e s p : ℚ) (r : FixedRiskResult),
      0 < |e - s| + cfg.slippage_per_share →
      0 ≤ cfg.account_balance * p - cfg.commission_per_trade →
      fixed_risk_by_stop cfg e s p = Except.ok r →
      (r.qty : ℚ) * r.trade_risk ≤ r.risk_amt - cfg.commission_per_trade ∧
      r.risk_amt - cfg.commission_per_trade < ((r.qty : ℚ) + 1) * r.trade_risk := by
  intro cfg e s p r htr hx h
  simp only [fixed_risk_by_stop, risk_amount] at h
  rw [if_neg htr.ne'] at h
  injection h with h
  subst h
  set tr := |e - s| + cfg.slippage_per_share with htr_def
  set x := cfg.account_balance * p - cfg.commission_per_trade with hx_def
  have hq : max ⌊x / tr⌋ 0 = ⌊x / tr⌋ :=
    max_eq_left (Int.floor_nonneg.mpr (div_nonneg hx htr.le))
  simp only [hq]
  constructor
  · calc (⌊x / tr⌋ : ℚ) * tr ≤ (x / tr) * tr :=
          mul_le_mul_of_nonneg_right (Int.floor_le _) htr.le
      _ = x := div_mul_cancel₀ x htr.ne'
  · calc x = (x / tr) * tr := (div_mul_cancel₀ x htr.ne').symm
      _ < ((⌊x / tr⌋ : ℚ) + 1) * tr :=
          mul_lt_mul_of_pos_right (Int.lt_floor_add_one _) htr

/-- Witness for C7: at the worked example, `40 * 5 ≤ 200` and
`200 < 41 * 5`. -/
theorem fixed_risk_floor_bounds_witness :
    ((40:ℤ):ℚ) * 5 ≤ 200 - 0 ∧ 200 - 0 < (((40:ℤ):ℚ) + 1) * 5 :=
  fixed_risk_floor_bounds ⟨10000, 0, 0⟩ 100 95 (2/100) ⟨40, 4000, 200, 5⟩
    (by norm_num) (by norm_num)
    (by simp only [fixed_risk_by_stop, risk_amount]; norm_num)

/-- C9: when the budget `balance * risk_pct` does not exceed the
commission (including negative risk percentages) and the risk per share is
positive, `fixed_risk_by_stop` silently returns quantity 0 and cost equal
to the commission, with no error. -/
theorem fixed_risk_nonpositive_budget :
    ∀ (cfg : PositionSizer) (e s p : ℚ),
      0 < |e - s| + cfg.slippage_per_share →
      cfg.account_balance * p ≤ cfg.commission_per_trade →
      fixed_risk_by_stop cfg e s p =
        Except.ok ⟨0, cfg.commission_per_trade, cfg.account_balance * p,
                   |e - s| + cfg.slippage_per_share⟩ := by
  intro cfg e s p htr hx
  simp only [fixed_risk_by_stop, risk_amount]
  rw [if_neg htr.ne']
  have h1 : (cfg.account_balance * p - cfg.commission_per_trade) /
      (|e - s| + cfg.slippage_per_share) ≤ 0 :=
    div_nonpos_of_nonpos_of_nonneg (by linarith) htr.le
  have h2 : max ⌊(cfg.account_balance * p - cfg.commission_per_trade) /
      (|e - s| + cfg.slippage_per_share)⌋ 0 = 0 :=
    max_eq_right (Int.floor_nonpos h1)
  rw [h2]
  norm_num

/-- Witness for C9: balance 10000, commission 50, risk 0% gives budget
`0 ≤ 50`, so quantity 0 and cost 50. -/
theorem fixed_risk_nonpositive_budget_witness :
    fixed_risk_by_stop ⟨10000, 50, 0⟩ 100 95 0 = Except.ok ⟨0, 50, 0, 5⟩ := by
  have h := fixed_risk_nonpositive_budget ⟨10000, 50, 0⟩ 100 95 0
    (by norm_num) (by norm_num)
  rw [h]
  norm_num

/-- C10: swapping entry and stop leaves the quantity, the risk amount and
the risk per share unchanged (the absolute difference is symmetric); only
the cost depends on which price is the entry. -/
theorem fixed_risk_by_stop_symm :
    ∀ (cfg : PositionSizer) (e s p : ℚ),
      (fixed_risk_by_stop cfg e s p).map (fun r => (r.qty, r.risk_amt, r.trade_risk)) =
      (fixed_risk_by_stop cfg s e p).map (fun r => (r.qty, r.risk_amt, r.trade_risk)) := by
  intro cfg e s p
  simp only [fixed_risk_by_stop, risk_amount, abs_sub_comm e s]
  split <;> rfl
